import Mathlib

/-!
Verification of the markdown-ticket CLI core (ticket_normalizer.py,
llm_processor.py, mcp_client.py) through a shallow embedding.

Strings are modelled as lists of characters; Python string methods used by
the code (strip, split, replace, startswith, the substring operator, join,
rsplit, zfill, upper, lower) are embedded below.  Python "truthiness" of a
string is emptiness; a Python function that may raise is embedded with an
Except or Option result; the generation backend of llm_processor.py is an
abstract oracle, one call per attempt index, whose result is either a raised
exception (.error) or the produced text (.ok).
-/

abbrev Str := List Char

/-- String literal helper: a Lean string as a list of characters. -/
def S (s : String) : Str := s.toList

/-- Python whitespace test (the ASCII whitespace set of str.strip and
str.split with no separator). -/
def pyIsSpace (c : Char) : Bool :=
  c.toNat == 32 || c.toNat == 9 || c.toNat == 10 || c.toNat == 13 ||
  c.toNat == 11 || c.toNat == 12

/-- Python str.strip with no argument: drop whitespace at both ends. -/
def pyStrip (l : Str) : Str :=
  ((l.dropWhile pyIsSpace).reverse.dropWhile pyIsSpace).reverse

/-- Python str.startswith: first argument is the pattern. -/
def pyStartsWith : Str → Str → Bool
  | [], _ => true
  | _ :: _, [] => false
  | a :: as, b :: bs => a == b && pyStartsWith as bs

/-- Python str.endswith. -/
def pyEndsWith (pat l : Str) : Bool :=
  pyStartsWith pat.reverse l.reverse

/-- The Python substring operator (pat in l). -/
def pyIn (pat : Str) : Str → Bool
  | [] => pyStartsWith pat []
  | c :: cs => pyStartsWith pat (c :: cs) || pyIn pat cs

/-- Recursion core of the Python str.split(sep) embedding, structurally
recursive on a fuel argument so that the kernel can evaluate it; the fuel is
always the length of the remaining string, so the exhausted-fuel arm is
never reached from the wrapper below. -/
def pySplitGo (sep : Str) : Nat → Str → List Str
  | 0, l => [l]
  | fuel + 1, l =>
    match l with
    | [] => [[]]
    | c :: cs =>
      if sep ≠ [] ∧ pyStartsWith sep (c :: cs) = true then
        [] :: pySplitGo sep fuel (cs.drop (sep.length - 1))
      else
        match pySplitGo sep fuel cs with
        | [] => [[c]]
        | w :: ws => (c :: w) :: ws

/-- Python str.split(sep) for a nonempty separator: split at every
non-overlapping occurrence, left to right, keeping empty pieces. -/
def pySplitOn (sep : Str) (l : Str) : List Str :=
  pySplitGo sep l.length l

/-- Python sep.join(pieces). -/
def joinWith (sep : Str) : List Str → Str
  | [] => []
  | [w] => w
  | w :: ws => w ++ sep ++ joinWith sep ws

/-- Python str.replace(pat, rep) for a nonempty pattern, via the identity
s.replace(pat, rep) == rep.join(s.split(pat)). -/
def pyReplace (pat rep : Str) (l : Str) : Str :=
  joinWith rep (pySplitOn pat l)

/-- Python str.split(sep, 1) for a nonempty separator: some (before, after)
at the first occurrence, none when the separator does not occur. -/
def pySplitOnce (sep : Str) : Str → Option (Str × Str)
  | [] => none
  | c :: cs =>
    if sep ≠ [] ∧ pyStartsWith sep (c :: cs) = true then
      some ([], cs.drop (sep.length - 1))
    else
      match pySplitOnce sep cs with
      | some (a, b) => some (c :: a, b)
      | none => none

/-- Helper for the Python word count of str.split with no separator. -/
def wordCountAux : Str → Bool → Nat
  | [], _ => 0
  | c :: cs, inWord =>
    if pyIsSpace c then wordCountAux cs false
    else if inWord then wordCountAux cs true
    else 1 + wordCountAux cs true

/-- Number of words of len(s.split()): maximal nonempty runs of
non-whitespace characters. -/
def pyWordCount (l : Str) : Nat := wordCountAux l false

/-- Python str.lower, modelled per character on the ASCII range. -/
def pyLowerChar (c : Char) : Char :=
  if 65 ≤ c.toNat && c.toNat ≤ 90 then Char.ofNat (c.toNat + 32) else c

/-- Python str.upper, modelled per character on the ASCII range. -/
def pyUpperChar (c : Char) : Char :=
  if 97 ≤ c.toNat && c.toNat ≤ 122 then Char.ofNat (c.toNat - 32) else c

/-- Python str.lower over a whole string. -/
def pyLower (l : Str) : Str := l.map pyLowerChar

/-- Python str.rstrip(single character). -/
def pyRstripChar (ch : Char) (l : Str) : Str :=
  (l.reverse.dropWhile (fun c => c == ch)).reverse

/-- The head of Python s.rsplit(a single space, 1): everything before the
last space, or the whole string when it holds no space. -/
def pyRsplitHead (l : Str) : Str :=
  if l.contains ' ' then
    ((l.reverse.dropWhile (fun c => !(c == ' '))).drop 1).reverse
  else l

/-- Python str.zfill(width): pad with zeros on the left up to the width;
longer strings pass through unchanged. -/
def zfill (width : Nat) (l : Str) : Str :=
  List.replicate (width - l.length) '0' ++ l

/-!
Embedding of llm_processor.py (class LLMProcessor).  The generation backend
(guidance models.OpenAI + gen) is an oracle mapping the attempt index to
either a raised exception (.error) or the raw generated text (.ok); the code
takes str(lm[output]).strip() of the raw text.  Each call also produces the
attempt parameters (user content, temperature, max tokens); the embedded
driver additionally returns the list of parameter triples of the backend
calls it actually made, so that claims about attempt counts and attempt
parameters can be stated.
-/

abbrev Backend := Nat → Except Unit Str

/-- Fixed result of generate_summary when description and rationale are both
empty. -/
def sentinelNoContent : Str := S "No content available for summary"

/-- Fixed result of _fallback_summary and _format_summary_from_sentences
when no sentence is available. -/
def sentinelUnable : Str := S "Unable to generate summary from content"

/-- The literal suffix appended to the truncated content on attempt 2
(_get_attempt_params). -/
def attempt2Suffix : Str :=
  S "\n\nSummarize the key improvement or fix being described above in 10-20 words."

/-- The fixed generic user content of attempt 3 (_get_attempt_params). -/
def attempt3Content : Str :=
  S "Create a dashboard for managing multiple projects. What does this solve? Answer in 10 words maximum."

/-- LLMProcessor._get_attempt_params: user content, temperature and max
tokens for each attempt. -/
def getAttemptParams (content : Str) (attempt : Nat) : Str × ℚ × Nat :=
  if attempt == 1 then (content, 3/10, 150)
  else if attempt == 2 then (content.take 800 ++ attempt2Suffix, 2/10, 100)
  else (attempt3Content, 0, 40)

/-- LLMProcessor._is_valid_summary: the validation heuristics, embedded as
the same sequence of early returns as the source. -/
def isValidSummary (summary : Str) : Bool :=
  if summary.isEmpty then false
  else if pyWordCount summary < 5 || pyWordCount summary > 30 then false
  else if summary.length > 250 then false
  else if pyIn (S "###") summary || pyIn (S "##") summary then false
  else if (((pySplitOn (S "\n") summary).map pyStrip).filter
      (fun l => !l.isEmpty)).length > 2 then false
  else if pyIn (S "- ") summary || pyIn (S "• ") summary
      || pyIn (S "* ") summary then false
  else true

/-- The section title fragments of LLMProcessor._should_skip_line. -/
def sectionHeadersSkip : List Str :=
  [S "problem statement", S "current state", S "desired state",
   S "current state:", S "desired state:", S "solution analysis",
   S "implementation", S "acceptance criteria", S "rationale"]

/-- The metadata keyword fragments of LLMProcessor._should_skip_line. -/
def metadataKeywords : List Str :=
  [S "efficiency:", S "oversight:", S "consistency:", S "scalability:",
   S "each project has its own", S "users must manually navigate"]

/-- LLMProcessor._should_skip_line: the sequence of early returns is a
boolean disjunction. -/
def shouldSkipLine (line : Str) : Bool :=
  (pyStartsWith (S "#") line
    || (pyStartsWith (S "**") line && pyEndsWith (S "**") line))
  || sectionHeadersSkip.any (fun h => pyIn h (pyLower line))
  || (pyStartsWith (S "-") line || pyStartsWith (S "*") line
      || pyStartsWith (S "•") line)
  || metadataKeywords.any (fun k => pyIn k (pyLower line))

/-- The section title fragments of LLMProcessor._is_section_header. -/
def sectionHeadersHdr : List Str :=
  [S "problem statement", S "current state", S "desired state",
   S "solution analysis", S "implementation", S "acceptance criteria"]

/-- LLMProcessor._is_section_header. -/
def isSectionHeader (line : Str) : Bool :=
  sectionHeadersHdr.any (fun h => pyIn h (pyLower line))

/-- LLMProcessor._is_meaningful_line. -/
def isMeaningfulLine (line : Str) : Bool :=
  line.length > 20 && !pyStartsWith (S "-") line

/-- LLMProcessor._clean_line. -/
def cleanLine (line : Str) : Str :=
  pyStrip (pyReplace (S "*") [] (pyReplace (S "**") [] line))

/-- The loop of LLMProcessor._extract_meaningful_sentences: per line, strip;
skip blank lines; skip lines _should_skip_line flags, setting the
skip-section flag on section headers; otherwise append the cleaned line when
the flag is off, the line is meaningful and the cleaned line is longer than
30 characters; stop once 3 lines are collected. -/
def extractMeaningfulGo : List Str → Bool → List Str → List Str
  | [], _, acc => acc
  | rawLine :: rest, skipSection, acc =>
    let line := pyStrip rawLine
    if line.isEmpty then extractMeaningfulGo rest skipSection acc
    else if shouldSkipLine line then
      extractMeaningfulGo rest (skipSection || isSectionHeader line) acc
    else
      let step :=
        if !skipSection && isMeaningfulLine line then
          let cl := cleanLine line
          if cl.length > 30 then (acc ++ [cl], false) else (acc, skipSection)
        else (acc, skipSection)
      if step.1.length ≥ 3 then step.1
      else extractMeaningfulGo rest step.2 step.1

/-- LLMProcessor._extract_meaningful_sentences. -/
def extractMeaningfulSentences (content : Str) : List Str :=
  extractMeaningfulGo (pySplitOn (S "\n") content) false []

/-- The problematic phrases of LLMProcessor._extract_simple_sentences. -/
def problematicPhrases : List Str :=
  [S "managing multiple projects", S "each project has", S "users must"]

/-- LLMProcessor._extract_simple_sentences. -/
def extractSimpleSentences (content : Str) : List Str :=
  let sentences := (pySplitOn (S ". ") content).filterMap
    (fun s =>
      let t := pyStrip s
      if !t.isEmpty && t.length > 20 then some t else none)
  match (sentences.take 3).find?
      (fun s => !problematicPhrases.any (fun p => pyIn p (pyLower s))) with
  | some s => [s]
  | none => sentences.take 1

/-- LLMProcessor._format_summary_from_sentences. -/
def formatSummaryFromSentences (sentences : List Str) : Str :=
  if sentences.isEmpty then sentinelUnable
  else
    let t := joinWith (S " ") (sentences.take 2)
    if t.length > 150 then pyRsplitHead (t.take 150) ++ S "..."
    else if t.length > 120 then pyRsplitHead (t.take 120) ++ S "..."
    else t

/-- LLMProcessor._fallback_summary.  The embedded extraction chain is pure
and total, so the try/except wrapper of the source (returning a second
sentinel on an internal exception) has no reachable error branch here. -/
def fallbackSummary (content : Str) : Str :=
  let ms := extractMeaningfulSentences content
  if !ms.isEmpty then formatSummaryFromSentences ms
  else
    let ss := extractSimpleSentences content
    if !ss.isEmpty then formatSummaryFromSentences ss
    else sentinelUnable

/-- LLMProcessor._generate_summary_with_attempts, instrumented with the list
of attempt parameter triples of the backend calls made.  The loop over
attempts 1..3 is unrolled: a candidate that is truthy and valid is returned
at once; an exception at attempt 3 and loop exhaustion both end in
_fallback_summary. -/
def generateSummaryWithAttemptsT (backend : Backend) (content : Str) :
    Str × List (Str × ℚ × Nat) :=
  let p1 := getAttemptParams content 1
  let p2 := getAttemptParams content 2
  let p3 := getAttemptParams content 3
  let step3 : Str :=
    match backend 3 with
    | .ok raw =>
      let r := pyStrip raw
      if !r.isEmpty && isValidSummary r then r else fallbackSummary content
    | .error _ => fallbackSummary content
  let after1 : Str × List (Str × ℚ × Nat) :=
    match backend 2 with
    | .ok raw =>
      let r := pyStrip raw
      if !r.isEmpty && isValidSummary r then (r, [p1, p2])
      else (step3, [p1, p2, p3])
    | .error _ => (step3, [p1, p2, p3])
  match backend 1 with
  | .ok raw =>
    let r := pyStrip raw
    if !r.isEmpty && isValidSummary r then (r, [p1]) else after1
  | .error _ => after1

/-- LLMProcessor._single_summary_attempt, instrumented the same way: one
backend call; an empty candidate or an exception falls to
_fallback_summary, with no validation heuristics applied. -/
def singleSummaryAttemptT (backend : Backend) (content : Str) :
    Str × List (Str × ℚ × Nat) :=
  let p1 := getAttemptParams content 1
  match backend 1 with
  | .ok raw =>
    let r := pyStrip raw
    if !r.isEmpty then (r, [p1]) else (fallbackSummary content, [p1])
  | .error _ => (fallbackSummary content, [p1])

/-- The content combination step of LLMProcessor.generate_summary: none when
both inputs are empty (the no-content early return). -/
def combineContent (description rationale : Str) : Option Str :=
  if !description.isEmpty && !rationale.isEmpty then
    some (S "Description: " ++ description ++ S "\n\nRationale: " ++ rationale)
  else if !description.isEmpty then some description
  else if !rationale.isEmpty then some rationale
  else none

/-- The length dispatch of LLMProcessor.generate_summary: the retry ladder
for content longer than 500 characters, a single attempt otherwise. -/
def generateSummaryCore (backend : Backend) (content : Str) :
    Str × List (Str × ℚ × Nat) :=
  if content.length > 500 then generateSummaryWithAttemptsT backend content
  else singleSummaryAttemptT backend content

/-- LLMProcessor.generate_summary, instrumented with the backend call
parameter trace. -/
def generateSummaryT (backend : Backend) (description rationale : Str) :
    Str × List (Str × ℚ × Nat) :=
  match combineContent description rationale with
  | none => (sentinelNoContent, [])
  | some content => generateSummaryCore backend content

/-- LLMProcessor.generate_summary: the returned string alone. -/
def generateSummary (backend : Backend) (description rationale : Str) : Str :=
  (generateSummaryT backend description rationale).1

/-!
Embedding of ticket_normalizer.py (TicketNormalizer.normalize).  The regular
expression of the source anchors both ends: the input (after strip and
upper) must be one or more characters of the class A to Z, a single dash,
then one or more decimal digits running to the end.  Because the dash is not
in the letter class, the letter group of any match is exactly the maximal
uppercase-letter run at the front, so the match is embedded as takeWhile
over that class followed by a literal dash and an all-digit remainder.
-/

/-- Character class of the letter group of the pattern. -/
def isUpperAZ (c : Char) : Bool := 65 ≤ c.toNat && c.toNat ≤ 90

/-- Character class of the digit group of the pattern. -/
def isDigit09 (c : Char) : Bool := 48 ≤ c.toNat && c.toNat ≤ 57

/-- TicketNormalizer.normalize: strip, upper-case, match the anchored
pattern of letters, dash, digits, then zero-pad the digits to width 3. -/
def ticketNormalize (s : Str) : Option (Str × Str) :=
  let t := (pyStrip s).map pyUpperChar
  let letters := t.takeWhile isUpperAZ
  match t.drop letters.length with
  | [] => none
  | c :: ds =>
    if c == '-' && !letters.isEmpty && !ds.isEmpty && ds.all isDigit09 then
      some (letters, zfill 3 ds)
    else none

/-!
Embedding of mcp_client.py.  JSON values parsed from the response line are
embedded as an inductive type; Python dictionaries become association lists
looked up at the first matching key.  The result-handling step of
_call_mcp_tool returns either the concatenated text (Sum.inl) or the parsed
result value verbatim (Sum.inr); appending a non-string text value to a
Python string raises a TypeError, embedded as the none outcome.
-/

inductive JVal where
  | jstr : Str → JVal
  | jnum : Int → JVal
  | jbool : Bool → JVal
  | jnull : JVal
  | jarr : List JVal → JVal
  | jobj : List (Str × JVal) → JVal

/-- Dictionary lookup: first matching key. -/
def jlookup : List (Str × JVal) → Str → Option JVal
  | [], _ => none
  | (k, v) :: rest, key => if k == key then some v else jlookup rest key

/-- The accumulation loop over the content items of _call_mcp_tool: every
item that is a dictionary holding a text key contributes its text value;
a non-string text value makes the Python string concatenation raise. -/
def concatTextItems : List JVal → Option Str
  | [] => some []
  | item :: rest =>
    match item with
    | .jobj fields =>
      match jlookup fields (S "text") with
      | some (.jstr t) => (concatTextItems rest).map (fun r => t ++ r)
      | some _ => none
      | none => concatTextItems rest
    | _ => concatTextItems rest

/-- The result-handling step of MCPClient._call_mcp_tool, applied to the
parsed result value of a successful JSON-RPC response. -/
def handleResult (result : JVal) : Option (Str ⊕ JVal) :=
  match result with
  | .jobj fields =>
    match jlookup fields (S "content") with
    | some (.jarr items) =>
      if items.length > 0 then (concatTextItems items).map Sum.inl
      else some (.inr result)
    | some _ => some (.inr result)
    | none => some (.inr result)
  | _ => some (.inr result)

/-- The icon prefix of the section metadata lines skipped by
_extract_section_content, exactly the four characters of the source text. -/
def sectionIcon : Str :=
  [Char.ofNat 0xF0, Char.ofNat 0x178, Char.ofNat 0x201C, Char.ofNat 0x2013]

/-- The icon of the header line matched by _parse_cr_response, exactly the
four characters of the source text. -/
def headerIcon : Str :=
  [Char.ofNat 0xF0, Char.ofNat 0x178, Char.ofNat 0x201C, Char.ofNat 0x201E]

/-- The loop of MCPClient._extract_section_content: capture starts after the
first line whose stripped text is three dashes and stops at the second;
inside the region, blank lines and metadata marker lines are dropped. -/
def extractSectionGo : List Str → Bool → List Str → List Str
  | [], _, acc => acc
  | line :: rest, capture, acc =>
    if pyStrip line == S "---" then
      if capture then acc else extractSectionGo rest true acc
    else if capture then
      if !(pyStrip line).isEmpty
          && !pyStartsWith sectionIcon line
          && !pyStartsWith (S "**Section:") line
          && !pyStartsWith (S "**Content Length:") line then
        extractSectionGo rest capture (acc ++ [line])
      else extractSectionGo rest capture acc
    else extractSectionGo rest capture acc

/-- MCPClient._extract_section_content. -/
def extractSectionContent (responseText : Str) : Str :=
  pyStrip (joinWith (S "\n")
    (extractSectionGo (pySplitOn (S "\n") responseText) false []))

/-- The attribute dictionary built by MCPClient._parse_cr_response. -/
structure CRAttrs where
  key : Str
  title : Str
  type : Str
  priority : Str
  status : Str
deriving DecidableEq

/-- The line loop of MCPClient._parse_cr_response: the header line sets the
title from the text after the first dash separator with trailing emphasis
stripped; the three dash-prefixed metadata lines set their fields. -/
def parseCrGo : List Str → CRAttrs → CRAttrs
  | [], attrs => attrs
  | rawLine :: rest, attrs =>
    let line := pyStrip rawLine
    if pyStartsWith (headerIcon ++ S " **") line && pyIn (S " - ") line then
      match pySplitOnce (S " - ") line with
      | some (_, after) =>
        parseCrGo rest { attrs with title := pyStrip (pyRstripChar '*' after) }
      | none => parseCrGo rest attrs
    else if pyStartsWith (S "- Status:") line then
      parseCrGo rest { attrs with status := pyStrip (pyReplace (S "- Status:") [] line) }
    else if pyStartsWith (S "- Type:") line then
      parseCrGo rest { attrs with type := pyStrip (pyReplace (S "- Type:") [] line) }
    else if pyStartsWith (S "- Priority:") line then
      parseCrGo rest { attrs with priority := pyStrip (pyReplace (S "- Priority:") [] line) }
    else parseCrGo rest attrs

/-- MCPClient._parse_cr_response. -/
def parseCrResponse (responseText : Str) (key : Str) : CRAttrs :=
  parseCrGo (pySplitOn (S "\n") responseText)
    { key := key, title := S "No Title", type := S "Unknown",
      priority := S "Medium", status := S "Unknown" }

/-- The two fixed section names of MCPClient._get_ticket_sections. -/
def sectionNames : List Str := [S "## Description", S "## Rationale"]

/-- The per-section body of the loop of MCPClient._get_ticket_sections: the
inner try absorbs a raised call, a falsy result and an empty extraction all
leave the dictionary untouched; otherwise the extracted content is stored
under the simplified name. -/
def processSection (oracle : Str → Except Unit Str) (name : Str) :
    List (Str × Str) :=
  match oracle name with
  | .error _ => []
  | .ok content =>
    if !content.isEmpty then
      let ec := extractSectionContent content
      if !ec.isEmpty then [(pyLower (pyReplace (S "## ") [] name), ec)]
      else []
    else []

/-- MCPClient._get_ticket_sections: the loop over the two section names,
each contribution appended to the dictionary. -/
def getTicketSections (oracle : Str → Except Unit Str) : List (Str × Str) :=
  sectionNames.foldl (fun acc name => acc ++ processSection oracle name) []

/-- Dictionary get with a none default, for the assembled sections. -/
def lookupSec : List (Str × Str) → Str → Option Str
  | [], _ => none
  | (k, v) :: rest, key => if k == key then some v else lookupSec rest key

/-- The TicketData dataclass of mcp_client.py. -/
structure TicketData where
  key : Str
  title : Str
  type : Str
  priority : Str
  status : Str
  description : Option Str
  rationale : Option Str
deriving DecidableEq

/-- MCPClient.get_ticket: the attribute call result is passed in (a raised
call propagates, re-raised as MCPClientError by the outer except); a falsy
attribute text returns none; otherwise the attributes are parsed, the two
sections fetched through the oracle, and the record assembled. -/
def getTicket (attrsResult : Except Unit Str)
    (oracle : Str → Except Unit Str) (key : Str) :
    Except Unit (Option TicketData) :=
  match attrsResult with
  | .error e => .error e
  | .ok attrsText =>
    if attrsText.isEmpty then .ok none
    else
      let attrs := parseCrResponse attrsText key
      let sections := getTicketSections oracle
      .ok (some
        { key := attrs.key, title := attrs.title, type := attrs.type,
          priority := attrs.priority, status := attrs.status,
          description := lookupSec sections (S "description"),
          rationale := lookupSec sections (S "rationale") })

/-!
Shared helper lemmas.
-/

/-- A nonempty list has a false isEmpty. -/
theorem isEmpty_eq_false_of_ne_nil {α : Type} {l : List α} (h : l ≠ []) :
    l.isEmpty = false := by
  cases l with
  | nil => exact absurd rfl h
  | cons a as => rfl

/-- A list with false isEmpty is nonempty. -/
theorem ne_nil_of_isEmpty_eq_false {α : Type} {l : List α}
    (h : l.isEmpty = false) : l ≠ [] := by
  cases l with
  | nil => simp at h
  | cons a as => exact List.cons_ne_nil a as

/-- A prefix test of a concatenated pattern entails the prefix test of its
first part. -/
theorem pyStartsWith_append_left {p q l : Str}
    (h : pyStartsWith (p ++ q) l = true) : pyStartsWith p l = true := by
  induction p generalizing l with
  | nil => rfl
  | cons a as ih =>
    cases l with
    | nil => simp [pyStartsWith] at h
    | cons b bs =>
      simp only [List.cons_append, pyStartsWith, Bool.and_eq_true] at h ⊢
      exact ⟨h.1, ih h.2⟩

/-- An empty pattern is a substring of everything. -/
theorem pyIn_nil (l : Str) : pyIn [] l = true := by
  cases l with
  | nil => rfl
  | cons c cs => simp [pyIn, pyStartsWith]

/-- A substring test of a concatenated pattern entails the substring test of
its first part. -/
theorem pyIn_append_left {p q l : Str}
    (h : pyIn (p ++ q) l = true) : pyIn p l = true := by
  induction l with
  | nil =>
    cases p with
    | nil => exact pyIn_nil []
    | cons a as => simp [pyIn, pyStartsWith] at h
  | cons c cs ih =>
    simp only [pyIn, Bool.or_eq_true] at h ⊢
    cases h with
    | inl h => exact Or.inl (pyStartsWith_append_left h)
    | inr h => exact Or.inr (ih h)

/-- Whitespace codes are all below 33. -/
theorem pyIsSpace_eq_false_of_ge {c : Char} (h : 33 ≤ c.toNat) :
    pyIsSpace c = false := by
  simp only [pyIsSpace, Bool.or_eq_false_iff, beq_eq_false_iff_ne, ne_eq]
  omega

/-- Characters below the lowercase range are fixed by the upper-case map. -/
theorem pyUpperChar_eq_self_of_lt {c : Char} (h : c.toNat < 97) :
    pyUpperChar c = c := by
  simp only [pyUpperChar, Bool.and_eq_true, decide_eq_true_eq]
  rw [if_neg]
  omega

/-- dropWhile is the identity when the predicate fails on every element. -/
theorem dropWhile_eq_self_of_forall {p : Char → Bool} {l : Str}
    (h : ∀ c ∈ l, p c = false) : l.dropWhile p = l := by
  cases l with
  | nil => rfl
  | cons a as =>
    rw [List.dropWhile_cons, if_neg]
    simp [h a (List.mem_cons_self a as)]

/-- pyStrip is the identity on strings with no whitespace at all. -/
theorem pyStrip_eq_self_of_forall {l : Str}
    (h : ∀ c ∈ l, pyIsSpace c = false) : pyStrip l = l := by
  unfold pyStrip
  rw [dropWhile_eq_self_of_forall h,
    dropWhile_eq_self_of_forall (fun c hc => h c (List.mem_reverse.mp hc)),
    List.reverse_reverse]

/-- Mapping a function that fixes every element is the identity. -/
theorem map_eq_self_of_forall {f : Char → Char} {l : Str}
    (h : ∀ c ∈ l, f c = c) : l.map f = l := by
  induction l with
  | nil => rfl
  | cons a as ih =>
    rw [List.map_cons, h a (List.mem_cons_self a as),
      ih (fun c hc => h c (List.mem_cons_of_mem a hc))]

/-- takeWhile of a concatenation whose first part satisfies the predicate
throughout and whose joint fails it. -/
theorem takeWhile_append_cons {q : Char → Bool} {p n : Str} {d : Char}
    (hall : ∀ c ∈ p, q c = true) (hd : q d = false) :
    List.takeWhile q (p ++ d :: n) = p := by
  induction p with
  | nil => simp [List.takeWhile_cons, hd]
  | cons a as ih =>
    simp only [List.cons_append, List.takeWhile_cons,
      hall a (List.mem_cons_self a as), if_true]
    rw [ih (fun c hc => hall c (List.mem_cons_of_mem a hc))]

/-!
Claim C8: attempt parameters are a pure function of the attempt index and
the source content.
-/

/-- Claim C8: for every attempt index in 1..3 and every source content, the
prompt text, temperature and max-token parameters depend only on the index
and the content: attempt 1 is the full content at temperature 3/10 with 150
tokens, attempt 2 the first 800 characters plus the fixed summarize suffix
at 2/10 with 100 tokens, attempt 3 a fixed generic prompt independent of the
content at 0 with 40 tokens; the parameter trace of the retry ladder is
always a nonempty prefix of the three-attempt parameter list, never
depending on backend outcomes, and the single-attempt path always makes
exactly the attempt-1 call. -/
theorem claim_C8_attempt_params :
  (∀ content, getAttemptParams content 1 = (content, 3/10, 150)) ∧
  (∀ content, getAttemptParams content 2
      = (content.take 800 ++ attempt2Suffix, 2/10, 100)) ∧
  (∀ content, getAttemptParams content 3 = (attempt3Content, 0, 40)) ∧
  (∀ (backend : Backend) (content : Str),
    [getAttemptParams content 1] <+: (generateSummaryWithAttemptsT backend content).2 ∧
    (generateSummaryWithAttemptsT backend content).2 <+:
      [getAttemptParams content 1, getAttemptParams content 2,
       getAttemptParams content 3]) ∧
  (∀ (backend : Backend) (content : Str),
    (singleSummaryAttemptT backend content).2 = [getAttemptParams content 1]) := by
  refine ⟨fun content => rfl, fun content => rfl, fun content => rfl, ?_, ?_⟩
  · intro backend content
    unfold generateSummaryWithAttemptsT
    rcases backend 1 with e1 | r1 <;> rcases backend 2 with e2 | r2 <;>
      rcases backend 3 with e3 | r3 <;> simp only <;> (try split_ifs) <;>
      constructor <;>
      first
        | exact ⟨[], rfl⟩
        | exact ⟨[getAttemptParams content 2, getAttemptParams content 3], rfl⟩
        | exact ⟨[getAttemptParams content 2], rfl⟩
        | exact ⟨[getAttemptParams content 3], rfl⟩
  · intro backend content
    unfold singleSummaryAttemptT
    rcases backend 1 with e1 | r1 <;> simp only <;> split_ifs <;> rfl

/-!
Claim C10: a content key holding an empty list or a non-list makes the
protocol client return the result object verbatim.
-/

/-- Claim C10: when the parsed result object holds a content key whose value
is an empty list or not a list at all, the result-handling step returns the
result object itself verbatim, never a concatenated text value. -/
theorem claim_C10_verbatim :
  (∀ fields, jlookup fields (S "content") = some (.jarr []) →
    handleResult (.jobj fields) = some (Sum.inr (.jobj fields))) ∧
  (∀ fields v, jlookup fields (S "content") = some v →
    (∀ items, v ≠ .jarr items) →
    handleResult (.jobj fields) = some (Sum.inr (.jobj fields))) := by
  constructor
  · intro fields h
    simp [handleResult, h]
  · intro fields v h hne
    cases v with
    | jarr items => exact absurd rfl (hne items)
    | jstr t => simp [handleResult, h]
    | jnum n => simp [handleResult, h]
    | jbool b => simp [handleResult, h]
    | jnull => simp [handleResult, h]
    | jobj o => simp [handleResult, h]

/-- Witness for claim C10 at a concrete result object with an empty content
list. -/
theorem claim_C10_witness :
  handleResult (.jobj [(S "content", JVal.jarr [])])
    = some (Sum.inr (.jobj [(S "content", JVal.jarr [])])) :=
  claim_C10_verbatim.1 [(S "content", JVal.jarr [])] rfl

/-!
Claim C2: concatenation of content item texts.  The spec asks for the text
of exactly the text-typed items; the code instead takes every dictionary
item holding a text key and never inspects the type field.
-/

/-- Modelled from the spec sentence for comparison: the concatenation of the
text field of every content item whose type field is the text type, with
non-text items ignored. -/
def specTextTypedConcat : List JVal → Str
  | [] => []
  | item :: rest =>
    match item with
    | .jobj fields =>
      (match jlookup fields (S "type"), jlookup fields (S "text") with
       | some (.jstr ty), some (.jstr t) =>
         if ty == S "text" then t ++ specTextTypedConcat rest
         else specTextTypedConcat rest
       | _, _ => specTextTypedConcat rest)
    | _ => specTextTypedConcat rest

/-- A content item typed as an image yet holding a text field: the spec
concatenation ignores it, the code includes it. -/
def c2Item : JVal :=
  .jobj [(S "type", .jstr (S "image")), (S "text", .jstr (S "X"))]

/-- Counterexample to claim C2 as stated: on a content list holding one
image-typed item with a text field, the code returns the text X as the
logical value, while the concatenation over text-typed items only is empty.
-/
theorem claim_C2_counterexample :
  handleResult (.jobj [(S "content", .jarr [c2Item])]) = some (Sum.inl (S "X"))
    ∧ specTextTypedConcat [c2Item] = [] ∧ S "X" ≠ [] :=
  ⟨rfl, rfl, by decide⟩

/-- The two-text-item response of the claim. -/
def abItems : List JVal :=
  [.jobj [(S "type", .jstr (S "text")), (S "text", .jstr (S "A"))],
   .jobj [(S "type", .jstr (S "text")), (S "text", .jstr (S "B"))]]

/-- Claim C2 as amended: the returned logical value concatenates the text
field of exactly those content items that are dictionaries holding a text
key, whatever their declared type; dictionary items without a text key and
non-dictionary items are ignored; a content list of two text items with
texts A and B yields AB. -/
theorem claim_C2_text_concat :
  (∀ fields items, jlookup fields (S "content") = some (.jarr items) →
    items ≠ [] →
    handleResult (.jobj fields) = (concatTextItems items).map Sum.inl) ∧
  (∀ fields t rest, jlookup fields (S "text") = some (.jstr t) →
    concatTextItems (.jobj fields :: rest)
      = (concatTextItems rest).map (fun r => t ++ r)) ∧
  (∀ fields rest, jlookup fields (S "text") = none →
    concatTextItems (.jobj fields :: rest) = concatTextItems rest) ∧
  (∀ item rest, (∀ fields, item ≠ .jobj fields) →
    concatTextItems (item :: rest) = concatTextItems rest) ∧
  handleResult (.jobj [(S "content", .jarr abItems)]) = some (Sum.inl (S "AB")) := by
  refine ⟨?_, ?_, ?_, ?_, rfl⟩
  · intro fields items h hne
    cases items with
    | nil => exact absurd rfl hne
    | cons i is => simp [handleResult, h]
  · intro fields t rest h
    simp [concatTextItems, h]
  · intro fields rest h
    simp [concatTextItems, h]
  · intro item rest h
    cases item with
    | jobj fields => exact absurd rfl (h fields)
    | jstr t => rfl
    | jnum n => rfl
    | jbool b => rfl
    | jnull => rfl
    | jarr l => rfl

/-- Witness for the amended claim C2 at the image-typed item content list. -/
theorem claim_C2_witness :
  handleResult (.jobj [(S "content", .jarr [c2Item])])
    = (concatTextItems [c2Item]).map Sum.inl :=
  claim_C2_text_concat.1 [(S "content", .jarr [c2Item])] [c2Item] rfl
    (by simp)

/-!
Claim C5: fallback formatting and truncation.  The two caps of the source
are exclusive branches of one if/elif, the break point is the last space
character of the capped prefix, and the appended ellipsis can push the
result past the cap, so the produced string is not always at most 150
characters long.
-/

/-- A 160-character sentence whose last space sits at index 148. -/
def c5Sentence : Str :=
  List.replicate 148 'a' ++ [' '] ++ List.replicate 11 'b'

set_option maxRecDepth 4000 in
/-- Counterexample to claim C5 as stated: formatting this one-sentence list
cuts at the last space of the 150-character prefix and appends the ellipsis,
giving 151 characters, more than the 150-character bound the claim places on
the result. -/
theorem claim_C5_counterexample :
  (formatSummaryFromSentences [c5Sentence]).length = 151 ∧
  150 < (formatSummaryFromSentences [c5Sentence]).length := by
  constructor
  · decide
  · decide

/-- Claim C5 as amended: with at least one sentence available, the summary
joins the first one or two sentences with a space; a join longer than 150
characters is cut at the last space character of its 150-character prefix
with an ellipsis appended; otherwise a join longer than 120 characters is
cut the same way at its 120-character prefix; otherwise the join is returned
unchanged.  The two caps are exclusive branches and the ellipsis may push
the result past the cap. -/
theorem claim_C5_format_truncation :
  ∀ sentences : List Str, sentences ≠ [] →
    (150 < (joinWith (S " ") (sentences.take 2)).length →
      formatSummaryFromSentences sentences
        = pyRsplitHead ((joinWith (S " ") (sentences.take 2)).take 150) ++ S "...") ∧
    (120 < (joinWith (S " ") (sentences.take 2)).length →
      (joinWith (S " ") (sentences.take 2)).length ≤ 150 →
      formatSummaryFromSentences sentences
        = pyRsplitHead ((joinWith (S " ") (sentences.take 2)).take 120) ++ S "...") ∧
    ((joinWith (S " ") (sentences.take 2)).length ≤ 120 →
      formatSummaryFromSentences sentences = joinWith (S " ") (sentences.take 2)) := by
  intro sentences hne
  have he : sentences.isEmpty = false := isEmpty_eq_false_of_ne_nil hne
  refine ⟨?_, ?_, ?_⟩
  · intro h1
    simp only [formatSummaryFromSentences, he, Bool.false_eq_true, if_false]
    split_ifs with g1 g2 <;> first | rfl | omega
  · intro h1 h2
    simp only [formatSummaryFromSentences, he, Bool.false_eq_true, if_false]
    split_ifs with g1 g2 <;> first | rfl | omega
  · intro h1
    simp only [formatSummaryFromSentences, he, Bool.false_eq_true, if_false]
    split_ifs with g1 g2 <;> first | rfl | omega

/-- Witness for the amended claim C5 at a short concrete sentence list. -/
theorem claim_C5_witness :
  formatSummaryFromSentences [S "hello world"]
    = joinWith (S " ") ([S "hello world"].take 2) :=
  (claim_C5_format_truncation [S "hello world"] (by simp)).2.2 (by decide)

/-!
Claim C9: idempotence of the ticket normalizer.
-/

/-- Unfolding of the uppercase letter class into code bounds. -/
theorem toNat_bounds_of_isUpperAZ {c : Char} (h : isUpperAZ c = true) :
    65 ≤ c.toNat ∧ c.toNat ≤ 90 := by
  simpa [isUpperAZ] using h

/-- Unfolding of the digit class into code bounds. -/
theorem toNat_bounds_of_isDigit09 {c : Char} (h : isDigit09 c = true) :
    48 ≤ c.toNat ∧ c.toNat ≤ 57 := by
  simpa [isDigit09] using h

/-- Shape of a successful normalization: the project part is a run of
uppercase letters and nonempty, the number part is all digits of length at
least 3. -/
theorem ticketNormalize_shape {s p n : Str}
    (h : ticketNormalize s = some (p, n)) :
    (∀ c ∈ p, isUpperAZ c = true) ∧ p ≠ [] ∧
    (∀ c ∈ n, isDigit09 c = true) ∧ 3 ≤ n.length := by
  unfold ticketNormalize at h
  simp only [] at h
  rcases hdrop : List.drop
      (List.takeWhile isUpperAZ (List.map pyUpperChar (pyStrip s))).length
      (List.map pyUpperChar (pyStrip s)) with _ | ⟨c, ds⟩
  · rw [hdrop] at h
    exact absurd h (by simp)
  · rw [hdrop] at h
    simp only [] at h
    by_cases hg : (c == '-' && !(List.takeWhile isUpperAZ
        (List.map pyUpperChar (pyStrip s))).isEmpty
        && !ds.isEmpty && ds.all isDigit09) = true
    · rw [if_pos hg] at h
      injection h with h'
      injection h' with hp hn
      obtain ⟨⟨⟨hc, hlet⟩, hde⟩, hall⟩ := by
        simpa only [Bool.and_eq_true] using hg
      subst hp
      subst hn
      refine ⟨fun ch hch => List.mem_takeWhile_imp hch, ?_, ?_, ?_⟩
      · exact ne_nil_of_isEmpty_eq_false (by simpa using hlet)
      · intro ch hch
        rcases List.mem_append.mp hch with hrep | hmem
        · rw [List.eq_of_mem_replicate hrep]
          rfl
        · exact (List.all_eq_true.mp hall) ch hmem
      · simp only [zfill, List.length_append, List.length_replicate]
        omega
    · rw [if_neg hg] at h
      exact absurd h (by simp)

/-- Evaluation of the normalizer on a canonical project-dash-number string:
strip, upper-case and the match all leave it unchanged. -/
theorem ticketNormalize_of_canonical {p n : Str}
    (hp : ∀ c ∈ p, isUpperAZ c = true) (hpne : p ≠ [])
    (hn : ∀ c ∈ n, isDigit09 c = true) (hlen : 3 ≤ n.length) :
    ticketNormalize (p ++ '-' :: n) = some (p, n) := by
  have hnne : n ≠ [] := by
    intro hcon
    rw [hcon] at hlen
    simp at hlen
  have hnws : ∀ c ∈ p ++ '-' :: n, pyIsSpace c = false := by
    intro c hc
    rcases List.mem_append.mp hc with hcp | hcn
    · exact pyIsSpace_eq_false_of_ge
        (by have := toNat_bounds_of_isUpperAZ (hp c hcp); omega)
    · rcases List.mem_cons.mp hcn with rfl | hcn
      · decide
      · exact pyIsSpace_eq_false_of_ge
          (by have := toNat_bounds_of_isDigit09 (hn c hcn); omega)
  have hupper : ∀ c ∈ p ++ '-' :: n, pyUpperChar c = c := by
    intro c hc
    rcases List.mem_append.mp hc with hcp | hcn
    · exact pyUpperChar_eq_self_of_lt
        (by have := toNat_bounds_of_isUpperAZ (hp c hcp); omega)
    · rcases List.mem_cons.mp hcn with rfl | hcn
      · decide
      · exact pyUpperChar_eq_self_of_lt
          (by have := toNat_bounds_of_isDigit09 (hn c hcn); omega)
  unfold ticketNormalize
  simp only []
  rw [pyStrip_eq_self_of_forall hnws, map_eq_self_of_forall hupper]
  rw [takeWhile_append_cons hp (by decide)]
  rw [List.drop_left]
  simp only []
  rw [if_pos]
  · have hz : zfill 3 n = n := by
      simp [zfill, Nat.sub_eq_zero_of_le hlen]
    rw [hz]
  · simp only [Bool.and_eq_true, beq_self_eq_true, Bool.not_eq_true',
      true_and]
    refine ⟨⟨isEmpty_eq_false_of_ne_nil hpne, isEmpty_eq_false_of_ne_nil hnne⟩, ?_⟩
    exact List.all_eq_true.mpr hn

/-- Claim C9: on every input the normalizer accepts, feeding the resulting
pair back through the project-dash-number format reproduces the same pair;
the number part is zero-padded to width 3, and a number already at least 3
digits wide passes through zfill unchanged with no truncation. -/
theorem claim_C9_normalize_idempotent :
  (∀ s p n, ticketNormalize s = some (p, n) →
    ticketNormalize (p ++ '-' :: n) = some (p, n)) ∧
  (∀ s p n, ticketNormalize s = some (p, n) → 3 ≤ n.length) ∧
  (∀ ds : Str, 3 ≤ ds.length → zfill 3 ds = ds) ∧
  ticketNormalize (S "MDT-66") = some (S "MDT", S "066") ∧
  ticketNormalize (S "AAAA-12345") = some (S "AAAA", S "12345") := by
  refine ⟨?_, ?_, ?_, by decide, by decide⟩
  · intro s p n h
    obtain ⟨hp, hpne, hn, hlen⟩ := ticketNormalize_shape h
    exact ticketNormalize_of_canonical hp hpne hn hlen
  · intro s p n h
    exact (ticketNormalize_shape h).2.2.2
  · intro ds hlen
    simp [zfill, Nat.sub_eq_zero_of_le hlen]

/-- Witness for claim C9 at the round trip of the normalized MDT-66 and at
a five-digit number. -/
theorem claim_C9_witness :
  ticketNormalize (S "MDT" ++ '-' :: S "066") = some (S "MDT", S "066") ∧
  zfill 3 (S "12345") = S "12345" :=
  ⟨claim_C9_normalize_idempotent.1 (S "MDT-66") (S "MDT") (S "066") (by decide),
   claim_C9_normalize_idempotent.2.2.1 (S "12345") (by decide)⟩

/-!
Claim C4: the validation heuristics.
-/

/-- The validation heuristics as the spec words them: non-empty, word count
in 5..30, at most 250 characters, no double-hash heading marker, at most 2
non-blank lines, none of the three bullet markers. -/
def validSummarySpec (s : Str) : Prop :=
  s ≠ [] ∧ 5 ≤ pyWordCount s ∧ pyWordCount s ≤ 30 ∧ s.length ≤ 250 ∧
  pyIn (S "##") s = false ∧
  (((pySplitOn (S "\n") s).map pyStrip).filter
    (fun l => !l.isEmpty)).length ≤ 2 ∧
  pyIn (S "- ") s = false ∧ pyIn (S "• ") s = false ∧ pyIn (S "* ") s = false

/-- A candidate of exactly 31 whitespace-separated words. -/
def words31 : Str := joinWith (S " ") (List.replicate 31 (S "word"))

/-- A candidate of exactly 30 whitespace-separated words that passes every
other check. -/
def words30 : Str := joinWith (S " ") (List.replicate 30 (S "word"))

/-- A list with a true isEmpty is nil. -/
theorem eq_nil_of_isEmpty {l : Str} (h : l.isEmpty = true) : l = [] := by
  cases l with
  | nil => rfl
  | cons a as => simp at h

/-- A boolean that is not true is false. -/
theorem bool_eq_false {b : Bool} (h : ¬ b = true) : b = false := by
  cases b
  · rfl
  · exact absurd rfl h

set_option maxRecDepth 8000 in
/-- Claim C4: a candidate passes the validation heuristics exactly when it
is non-empty, has a whitespace word count in 5..30, is at most 250
characters, holds no double-hash heading marker, has at most 2 non-blank
lines and holds none of the three bullet markers (the triple-hash test of
the source is subsumed by the double-hash test); in particular a 31-word
candidate is rejected and a 30-word candidate passing the other checks is
accepted. -/
theorem claim_C4_validation :
  (∀ s, isValidSummary s = true ↔ validSummarySpec s) ∧
  isValidSummary words31 = false ∧ isValidSummary words30 = true := by
  refine ⟨?_, by decide, by decide⟩
  intro s
  unfold isValidSummary validSummarySpec
  constructor
  · intro h
    split_ifs at h with h1 h2 h3 h4 h5 h6
    have h2f := Bool.or_eq_false_iff.mp (bool_eq_false h2)
    have h4f := Bool.or_eq_false_iff.mp (bool_eq_false h4)
    have h6f := Bool.or_eq_false_iff.mp (bool_eq_false h6)
    have h6g := Bool.or_eq_false_iff.mp h6f.1
    push_neg at h3 h5
    refine ⟨ne_nil_of_isEmpty_eq_false (bool_eq_false h1), ?_, ?_, h3, h4f.2,
      h5, h6g.1, h6g.2, h6f.2⟩
    · have := of_decide_eq_false h2f.1
      omega
    · have := of_decide_eq_false h2f.2
      omega
  · rintro ⟨hne, hwc1, hwc2, hlen, hhash, hlines, hb1, hb2, hb3⟩
    split_ifs with h1 h2 h3 h4 h5 h6
    · exact absurd (eq_nil_of_isEmpty h1) hne
    · rw [Bool.or_eq_true] at h2
      rcases h2 with h2a | h2b
      · have := of_decide_eq_true h2a
        omega
      · have := of_decide_eq_true h2b
        omega
    · omega
    · rw [Bool.or_eq_true] at h4
      rcases h4 with h4a | h4b
      · have : pyIn (S "##" ++ S "#") s = true := h4a
        rw [pyIn_append_left this] at hhash
        exact Bool.noConfusion hhash
      · rw [h4b] at hhash
        exact Bool.noConfusion hhash
    · omega
    · rw [Bool.or_eq_true, Bool.or_eq_true] at h6
      rcases h6 with (h6a | h6b) | h6c
      · rw [h6a] at hb1
        exact Bool.noConfusion hb1
      · rw [h6b] at hb2
        exact Bool.noConfusion hb2
      · rw [h6c] at hb3
        exact Bool.noConfusion hb3
    · rfl

/-!
Claim C6: bullet-only input and the fallback sentinel.  The meaningful-line
extractor skips every bullet line, but the simple-sentence fallback has no
bullet filter: a long enough bullet line comes back as the summary, so the
sentinel is only reached when every sentence fragment is short.
-/

/-- The bullet test of _should_skip_line: the line starts with a dash, a
star or a bullet character. -/
def isBulletLine (t : Str) : Bool :=
  pyStartsWith (S "-") t || pyStartsWith (S "*") t || pyStartsWith (S "•") t

/-- Input whose non-blank content consists of bullet lines only. -/
def bulletOnly (content : Str) : Bool :=
  (pySplitOn (S "\n") content).all
    (fun l => (pyStrip l).isEmpty || isBulletLine (pyStrip l))

/-- Every dot-space fragment of the input strips to at most 20 characters,
so the simple sentence extraction keeps nothing. -/
def fragsShort (content : Str) : Bool :=
  (pySplitOn (S ". ") content).all (fun s => (pyStrip s).length ≤ 20)

/-- A bullet line is skipped by _should_skip_line. -/
theorem shouldSkipLine_of_bullet {t : Str} (h : isBulletLine t = true) :
    shouldSkipLine t = true := by
  unfold isBulletLine at h
  unfold shouldSkipLine
  rw [h]
  simp

/-- The meaningful-line loop appends nothing when every line is blank or a
bullet line. -/
theorem extractMeaningfulGo_all_skipped :
    ∀ {lines : List Str} {skip : Bool} {acc : List Str},
    (∀ l ∈ lines,
      (pyStrip l).isEmpty = true ∨ isBulletLine (pyStrip l) = true) →
    extractMeaningfulGo lines skip acc = acc := by
  intro lines
  induction lines with
  | nil => intro skip acc h; rfl
  | cons l rest ih =>
    intro skip acc h
    rcases h l (List.mem_cons_self l rest) with he | hb
    · simp only [extractMeaningfulGo, he]
      exact ih (fun x hx => h x (List.mem_cons_of_mem l hx))
    · have hskip := shouldSkipLine_of_bullet hb
      cases hemp : (pyStrip l).isEmpty
      · simp only [extractMeaningfulGo, hemp, Bool.false_eq_true, if_false,
          hskip, if_true]
        exact ih (fun x hx => h x (List.mem_cons_of_mem l hx))
      · simp only [extractMeaningfulGo, hemp, if_true]
        exact ih (fun x hx => h x (List.mem_cons_of_mem l hx))

/-- The simple sentence extraction keeps nothing when every fragment strips
to at most 20 characters. -/
theorem extractSimpleSentences_eq_nil {content : Str}
    (h : ∀ s ∈ pySplitOn (S ". ") content, (pyStrip s).length ≤ 20) :
    extractSimpleSentences content = [] := by
  unfold extractSimpleSentences
  have hfm : ((pySplitOn (S ". ") content).filterMap
      (fun s =>
        let t := pyStrip s
        if !t.isEmpty && t.length > 20 then some t else none)) = [] := by
    rw [List.filterMap_eq_nil]
    intro a ha
    have hle := h a ha
    simp only []
    rw [if_neg]
    simp only [Bool.and_eq_true, decide_eq_true_eq, not_and]
    intro _
    omega
  rw [hfm]
  simp

/-- Claim C6 as amended: on input whose only non-blank content is bullet
lines, the meaningful-line extractor finds nothing; the fallback returns the
unable-to-summarize sentinel provided additionally every dot-space sentence
fragment strips to at most 20 characters, since the simple-sentence
extraction applies no bullet filter of its own. -/
theorem claim_C6_bullet_fallback :
  ∀ content, bulletOnly content = true →
    extractMeaningfulSentences content = [] ∧
    (fragsShort content = true → fallbackSummary content = sentinelUnable) := by
  intro content hb
  have hlines : ∀ l ∈ pySplitOn (S "\n") content,
      (pyStrip l).isEmpty = true ∨ isBulletLine (pyStrip l) = true := by
    intro l hl
    have h2 := List.all_eq_true.mp hb l hl
    simpa only [Bool.or_eq_true] using h2
  have hms : extractMeaningfulSentences content = [] :=
    extractMeaningfulGo_all_skipped hlines
  refine ⟨hms, fun hf => ?_⟩
  have hss : extractSimpleSentences content = [] :=
    extractSimpleSentences_eq_nil (fun s hs => by
      have := List.all_eq_true.mp hf s hs
      simpa using this)
  simp [fallbackSummary, hms, hss]

/-- A bullet-only input whose fragments are all short. -/
def c6Content : Str := S "- short one\n- two"

/-- Witness for the amended claim C6 at a concrete two-bullet input. -/
theorem claim_C6_witness :
  extractMeaningfulSentences c6Content = [] ∧
  fallbackSummary c6Content = sentinelUnable :=
  ⟨(claim_C6_bullet_fallback c6Content (by decide)).1,
   (claim_C6_bullet_fallback c6Content (by decide)).2 (by decide)⟩

/-- A single long bullet line. -/
def c6Bullet : Str := S "- aaaaaaaaaaaaaaaaaaaaaaaaa"

/-- Counterexample to claim C6 as stated: an input consisting of one long
bullet line makes the fallback return the bullet text itself through the
simple-sentence extraction, not the unable-to-summarize sentinel. -/
theorem claim_C6_counterexample :
  bulletOnly c6Bullet = true ∧ fallbackSummary c6Bullet ≠ sentinelUnable := by
  constructor
  · decide
  · decide

/-!
Claim C3: the short-content path.  One attempt is made, but the source
applies no validation heuristics there: a non-empty candidate is returned
as-is even when it would fail them; only an empty candidate or a raised
call falls back.
-/

/-- Claim C3 as amended: for every combined content of at most 500
characters, exactly one backend call is made, with the attempt-1 parameters,
and the returned string is either the deterministic fallback output (on a
raised call or an empty stripped candidate) or the non-empty stripped
candidate itself, with no validation heuristics applied. -/
theorem claim_C3_single_attempt :
  ∀ (backend : Backend) (d r content : Str),
    combineContent d r = some content → content.length ≤ 500 →
    (generateSummaryT backend d r).2 = [getAttemptParams content 1] ∧
    ((generateSummaryT backend d r).1 = fallbackSummary content ∨
      ∃ raw, backend 1 = .ok raw ∧ pyStrip raw ≠ [] ∧
        (generateSummaryT backend d r).1 = pyStrip raw) := by
  intro backend d r content hcomb hlen
  have hnotgt : ¬ content.length > 500 := by omega
  simp only [generateSummaryT, hcomb, generateSummaryCore, hnotgt, if_false]
  rcases hb : backend 1 with e | raw
  · simp only [singleSummaryAttemptT, hb]
    exact ⟨trivial, Or.inl trivial⟩
  · simp only [singleSummaryAttemptT, hb]
    cases hemp : (pyStrip raw).isEmpty
    · simp only [hemp, Bool.not_false, if_true]
      exact ⟨trivial, Or.inr ⟨raw, rfl, ne_nil_of_isEmpty_eq_false hemp, rfl⟩⟩
    · simp only [hemp, Bool.not_true, Bool.false_eq_true, if_false]
      exact ⟨trivial, Or.inl trivial⟩

/-- A backend whose every call raises. -/
def c3Backend0 : Backend := fun _ => Except.error ()

/-- A short description routed through the single-attempt path. -/
def c3Hello : Str := S "hello world example"

/-- Witness for the amended claim C3 at a concrete short input and an
always-raising backend. -/
theorem claim_C3_witness :
  (generateSummaryT c3Backend0 c3Hello []).2
      = [getAttemptParams c3Hello 1] ∧
  ((generateSummaryT c3Backend0 c3Hello []).1 = fallbackSummary c3Hello ∨
    ∃ raw, c3Backend0 1 = .ok raw ∧ pyStrip raw ≠ [] ∧
      (generateSummaryT c3Backend0 c3Hello []).1 = pyStrip raw) :=
  claim_C3_single_attempt c3Backend0 c3Hello [] c3Hello (by decide) (by decide)

/-- A backend returning a two-word candidate that fails the heuristics. -/
def c3Backend : Backend := fun _ => Except.ok (S "too few")

/-- A short description whose fallback output differs from the candidate. -/
def c3Desc : Str := S "short ticket description here"

/-- Counterexample to claim C3 as stated: on content of at most 500
characters whose single attempt returns a non-empty two-word candidate, the
code returns that candidate although it fails the validation heuristics and
differs from the deterministic fallback output. -/
theorem claim_C3_counterexample :
  c3Desc.length ≤ 500 ∧
  combineContent c3Desc [] = some c3Desc ∧
  isValidSummary (generateSummary c3Backend c3Desc []) = false ∧
  generateSummary c3Backend c3Desc [] ≠ fallbackSummary c3Desc := by
  refine ⟨by decide, by decide, by decide, by decide⟩

/-!
Claim C7: per-section failures are absorbed during a ticket fetch.
-/

/-- Claim C7: the sections dictionary is the concatenation of two
independent per-section contributions, so one section failing cannot affect
the other; a raised section call or an empty extraction leaves its section
out of the dictionary; and with any non-empty attribute text the overall
fetch succeeds with a record whose optional section fields are exactly the
dictionary lookups. -/
theorem claim_C7_section_independence :
  (∀ oracle : Str → Except Unit Str, getTicketSections oracle
      = processSection oracle (S "## Description")
        ++ processSection oracle (S "## Rationale")) ∧
  (∀ (oracle : Str → Except Unit Str) name,
    oracle name = .error () → processSection oracle name = []) ∧
  (∀ (oracle : Str → Except Unit Str) name content,
    oracle name = .ok content → extractSectionContent content = [] →
    processSection oracle name = []) ∧
  (∀ (attrsText : Str) (oracle : Str → Except Unit Str) (key : Str),
    attrsText ≠ [] →
    ∃ td, getTicket (.ok attrsText) oracle key = .ok (some td) ∧
      td.description = lookupSec (getTicketSections oracle) (S "description") ∧
      td.rationale = lookupSec (getTicketSections oracle) (S "rationale")) := by
  refine ⟨?_, ?_, ?_, ?_⟩
  · intro oracle
    simp [getTicketSections, sectionNames]
  · intro oracle name h
    simp [processSection, h]
  · intro oracle name content h hext
    simp only [processSection, h]
    cases hemp : content.isEmpty
    · simp only [hemp, Bool.not_false, if_true, hext]
      simp
    · simp [hemp]
  · intro attrsText oracle key hne
    have hemp : attrsText.isEmpty = false := isEmpty_eq_false_of_ne_nil hne
    refine ⟨⟨(parseCrResponse attrsText key).key,
      (parseCrResponse attrsText key).title,
      (parseCrResponse attrsText key).type,
      (parseCrResponse attrsText key).priority,
      (parseCrResponse attrsText key).status,
      lookupSec (getTicketSections oracle) (S "description"),
      lookupSec (getTicketSections oracle) (S "rationale")⟩, ?_, rfl, rfl⟩
    simp [getTicket, hemp]

/-- A section response with a delimited body. -/
def c7SectionText : Str := S "head\n---\nrationale body text\n---\nend"

/-- An oracle whose description call raises and whose rationale call
succeeds. -/
def c7Oracle : Str → Except Unit Str := fun name =>
  if name == S "## Description" then Except.error ()
  else Except.ok c7SectionText

/-- Witness for claim C7: with the description call raising, its section is
omitted while the fetch still succeeds and the rationale lookup is intact.
-/
theorem claim_C7_witness :
  processSection c7Oracle (S "## Description") = [] ∧
  (∃ td, getTicket (.ok (S "t")) c7Oracle (S "MDT-001") = .ok (some td) ∧
    td.description = lookupSec (getTicketSections c7Oracle) (S "description") ∧
    td.rationale = lookupSec (getTicketSections c7Oracle) (S "rationale")) :=
  ⟨claim_C7_section_independence.2.1 c7Oracle (S "## Description") rfl,
   claim_C7_section_independence.2.2.2 (S "t") c7Oracle (S "MDT-001") (by decide)⟩

/-!
Claim C1: totality and non-emptiness of generate_summary.  The embedding is
a total function into plain strings for an arbitrary backend oracle, so the
never-raises part of the claim is the well-definedness of the embedded
function over every backend behaviour, including one raising on every call;
the non-emptiness is proved below.
-/

/-- Every line collected by the meaningful-line loop is longer than 30
characters. -/
theorem mem_extractMeaningfulGo :
    ∀ {lines : List Str} {skip : Bool} {acc : List Str},
    (∀ x ∈ acc, 30 < x.length) →
    ∀ x ∈ extractMeaningfulGo lines skip acc, 30 < x.length := by
  intro lines
  induction lines with
  | nil => intro skip acc hacc x hx; exact hacc x hx
  | cons l rest ih =>
    intro skip acc hacc x hx
    rw [extractMeaningfulGo] at hx
    simp only [] at hx
    split_ifs at hx <;>
      first
        | exact hacc x hx
        | exact ih hacc x hx
        | exact (List.mem_append.mp hx).elim (fun hy => hacc x hy)
            (fun hy => by rw [List.mem_singleton.mp hy]; assumption)
        | exact ih (fun y hy => (List.mem_append.mp hy).elim
            (fun hy1 => hacc y hy1)
            (fun hy2 => by rw [List.mem_singleton.mp hy2]; assumption)) x hx

/-- Every meaningful sentence is longer than 30 characters. -/
theorem mem_extractMeaningfulSentences {content x : Str}
    (hx : x ∈ extractMeaningfulSentences content) : 30 < x.length :=
  mem_extractMeaningfulGo (fun y hy => absurd hy (List.not_mem_nil y)) x hx

/-- Every simple sentence is longer than 20 characters. -/
theorem mem_extractSimpleSentences {content x : Str}
    (hx : x ∈ extractSimpleSentences content) : 20 < x.length := by
  unfold extractSimpleSentences at hx
  simp only [] at hx
  have hsent : ∀ y ∈ (pySplitOn (S ". ") content).filterMap
      (fun s =>
        let t := pyStrip s
        if !t.isEmpty && t.length > 20 then some t else none),
      20 < y.length := by
    intro y hy
    obtain ⟨a, ha, hfa⟩ := List.mem_filterMap.mp hy
    simp only [] at hfa
    split_ifs at hfa with hg
    · rw [Bool.and_eq_true] at hg
      obtain ⟨hg1, hg2⟩ := hg
      injection hfa with hfa
      rw [← hfa]
      exact of_decide_eq_true hg2
  rcases hfind : ((pySplitOn (S ". ") content).filterMap
      (fun s =>
        let t := pyStrip s
        if !t.isEmpty && t.length > 20 then some t else none)).take 3
      |>.find? (fun s => !problematicPhrases.any (fun p => pyIn p (pyLower s))) with
    _ | s
  · rw [hfind] at hx
    exact hsent x (List.take_subset 1 _ hx)
  · rw [hfind] at hx
    rw [List.mem_singleton.mp hx]
    exact hsent s (List.take_subset 3 _ (List.mem_of_find?_eq_some hfind))

/-- The join of a nonempty piece list is at least as long as its head. -/
theorem joinWith_head_le {sep x : Str} {xs : List Str} :
    x.length ≤ (joinWith sep (x :: xs)).length := by
  cases xs with
  | nil => exact Nat.le_refl _
  | cons y ys =>
    simp only [joinWith, List.append_assoc, List.length_append]
    omega

/-- Formatting a nonempty list of nonempty sentences gives a nonempty
summary. -/
theorem formatSummaryFromSentences_pos {sentences : List Str}
    (hne : sentences ≠ []) (hx : ∀ x ∈ sentences, 0 < x.length) :
    0 < (formatSummaryFromSentences sentences).length := by
  obtain ⟨s0, rest, rfl⟩ := List.exists_cons_of_ne_nil hne
  have he : (s0 :: rest).isEmpty = false := rfl
  simp only [formatSummaryFromSentences, he, Bool.false_eq_true, if_false]
  split_ifs with g1 g2
  · simp [List.length_append, S]
  · simp [List.length_append, S]
  · have h0 : 0 < s0.length := hx s0 (List.mem_cons_self s0 rest)
    have ht : List.take 2 (s0 :: rest) = s0 :: List.take 1 rest := rfl
    have : s0.length ≤ (joinWith (S " ") (List.take 2 (s0 :: rest))).length := by
      rw [ht]
      exact joinWith_head_le
    omega

/-- The deterministic fallback always returns a nonempty string. -/
theorem fallbackSummary_pos (content : Str) :
    0 < (fallbackSummary content).length := by
  unfold fallbackSummary
  simp only []
  cases hms : (extractMeaningfulSentences content).isEmpty
  · simp only [hms, Bool.not_false, if_true]
    exact formatSummaryFromSentences_pos (ne_nil_of_isEmpty_eq_false hms)
      (fun x hx => by
        have := mem_extractMeaningfulSentences hx
        omega)
  · simp only [hms, Bool.not_true, Bool.false_eq_true, if_false]
    cases hss : (extractSimpleSentences content).isEmpty
    · simp only [hss, Bool.not_false, if_true]
      exact formatSummaryFromSentences_pos (ne_nil_of_isEmpty_eq_false hss)
        (fun x hx => by
          have := mem_extractSimpleSentences hx
          omega)
    · simp only [hss, Bool.not_true, Bool.false_eq_true, if_false]
      decide

/-- A Python-truthy string is nonempty. -/
theorem pos_of_truthy {r : Str} (h : (!r.isEmpty) = true) : 0 < r.length := by
  cases r with
  | nil => simp at h
  | cons a as => simp

/-- The acceptance guard of the retry ladder implies a nonempty candidate. -/
theorem pos_of_valid_guard {r : Str}
    (h : (!r.isEmpty && isValidSummary r) = true) : 0 < r.length := by
  rw [Bool.and_eq_true] at h
  exact pos_of_truthy h.1

/-- Both dispatch paths of generate_summary return a nonempty string for
every backend behaviour. -/
theorem generateSummaryCore_pos (backend : Backend) (content : Str) :
    0 < (generateSummaryCore backend content).1.length := by
  unfold generateSummaryCore
  split_ifs with hlen
  · unfold generateSummaryWithAttemptsT
    simp only []
    rcases backend 1 with e1 | r1 <;> rcases backend 2 with e2 | r2 <;>
      rcases backend 3 with e3 | r3 <;> simp only [] <;> (try split_ifs) <;>
      first
        | exact fallbackSummary_pos content
        | exact pos_of_valid_guard (by assumption)
  · unfold singleSummaryAttemptT
    simp only []
    rcases backend 1 with e1 | r1 <;> simp only [] <;> (try split_ifs) <;>
      first
        | exact fallbackSummary_pos content
        | exact pos_of_truthy (by assumption)

/-- Claim C1: for every backend behaviour, including one raising on every
call or producing unusable candidates, and for every pair of input texts,
generate_summary returns a non-empty string; both inputs empty yield the
fixed no-content sentinel. -/
theorem claim_C1_total_nonempty :
  (∀ (backend : Backend) (d r : Str),
    0 < (generateSummary backend d r).length) ∧
  (∀ backend : Backend, generateSummary backend [] [] = sentinelNoContent) := by
  constructor
  · intro backend d r
    unfold generateSummary generateSummaryT
    rcases hc : combineContent d r with _ | c
    · simp only [hc]
      decide
    · simp only [hc]
      exact generateSummaryCore_pos backend c
  · intro backend
    rfl
